import Mathlib

/-!
Verification of the `SecurityStateController` of
`internal/app/machined/pkg/controllers/runtime/security_state.go`.

The development embeds the controller's `Run` method and its helper
`x509CertFingerprint` shallowly:

* SHA-256 (the Go standard library `crypto/sha256.Sum256`) is modelled
  bit-faithfully over `List Nat` bytes, with all 32-bit arithmetic done
  modulo `2 ^ 32`;
* `hex.EncodeToString` and the colon/upper-case formatting loop of
  `x509CertFingerprint` are translated directly from the source;
* the external collaborators (firmware query via `efi.GetSecureBoot` /
  `efi.GetSetupMode`, `os.ReadFile`, `pem.Decode`, cancellation and the
  scheduling event channel) are supplied through an environment record,
  and the COSI resource plus `safe.WriterModify` become explicit state
  passing over an `Option SecurityStateSpec` store.
-/

set_option autoImplicit false

/-! ### 32-bit primitives for SHA-256 -/

/-- Addition modulo `2 ^ 32`, the wrap-around addition on `uint32`. -/
def add32 (a b : Nat) : Nat := (a + b) % 4294967296

/-- Right rotation of a 32-bit word by `n` places. -/
def rotr32 (n x : Nat) : Nat :=
  ((x >>> n) ||| (x <<< (32 - n))) % 4294967296

/-- `Ch(x, y, z) = (x AND y) XOR ((NOT x) AND z)` on 32-bit words. -/
def shaCh (x y z : Nat) : Nat :=
  ((x &&& y) ^^^ ((x ^^^ 4294967295) &&& z)) % 4294967296

/-- `Maj(x, y, z) = (x AND y) XOR (x AND z) XOR (y AND z)`. -/
def shaMaj (x y z : Nat) : Nat :=
  ((x &&& y) ^^^ (x &&& z) ^^^ (y &&& z)) % 4294967296

/-- Big sigma-0: `ROTR^2 XOR ROTR^13 XOR ROTR^22`. -/
def bigSigma0 (x : Nat) : Nat := rotr32 2 x ^^^ rotr32 13 x ^^^ rotr32 22 x

/-- Big sigma-1: `ROTR^6 XOR ROTR^11 XOR ROTR^25`. -/
def bigSigma1 (x : Nat) : Nat := rotr32 6 x ^^^ rotr32 11 x ^^^ rotr32 25 x

/-- Small sigma-0: `ROTR^7 XOR ROTR^18 XOR SHR^3`. -/
def smallSigma0 (x : Nat) : Nat := rotr32 7 x ^^^ rotr32 18 x ^^^ (x >>> 3)

/-- Small sigma-1: `ROTR^17 XOR ROTR^19 XOR SHR^10`. -/
def smallSigma1 (x : Nat) : Nat := rotr32 17 x ^^^ rotr32 19 x ^^^ (x >>> 10)

/-- The 64 SHA-256 round constants. -/
def shaK : List Nat :=
  [1116352408, 1899447441, 3049323471, 3921009573, 961987163,
   1508970993, 2453635748, 2870763221, 3624381080, 310598401,
   607225278, 1426881987, 1925078388, 2162078206, 2614888103,
   3248222580, 3835390401, 4022224774, 264347078, 604807628,
   770255983, 1249150122, 1555081692, 1996064986, 2554220882,
   2821834349, 2952996808, 3210313671, 3336571891, 3584528711,
   113926993, 338241895, 666307205, 773529912, 1294757372,
   1396182291, 1695183700, 1986661051, 2177026350, 2456956037,
   2730485921, 2820302411, 3259730800, 3345764771, 3516065817,
   3600352804, 4094571909, 275423344, 430227734, 506948616,
   659060556, 883997877, 958139571, 1322822218, 1537002063,
   1747873779, 1955562222, 2024104815, 2227730452, 2361852424,
   2428436474, 2756734187, 3204031479, 3329325298]

/-- The eight 32-bit words of the SHA-256 working state. -/
structure Hash8 where
  a : Nat
  b : Nat
  c : Nat
  d : Nat
  e : Nat
  f : Nat
  g : Nat
  h : Nat
deriving Repr, DecidableEq

/-- The SHA-256 initial hash value. -/
def shaH0 : Hash8 :=
  ⟨1779033703, 3144134277, 1013904242,
   2773480762, 1359893119, 2600822924,
   528734635, 1541459225⟩

/-- Extend the message schedule: given the schedule so far in reverse
order (newest word first), push `n` further words
`W[i] = sigma1 W[i-2] + W[i-7] + sigma0 W[i-15] + W[i-16] (mod 2^32)`. -/
def extendScheduleRev : Nat → List Nat → List Nat
  | 0, rev => rev
  | n + 1, rev =>
      let next := (smallSigma1 (rev.getD 1 0) + rev.getD 6 0 +
        smallSigma0 (rev.getD 14 0) + rev.getD 15 0) % 4294967296
      extendScheduleRev n (next :: rev)

/-- The full 64-word message schedule of a 16-word block. -/
def schedule (block : List Nat) : List Nat :=
  (extendScheduleRev 48 block.reverse).reverse

/-- One SHA-256 round with round constant `k` and schedule word `w`. -/
def roundStep (st : Hash8) (kw : Nat × Nat) : Hash8 :=
  let t1 := (st.h + bigSigma1 st.e + shaCh st.e st.f st.g + kw.1 + kw.2) % 4294967296
  let t2 := (bigSigma0 st.a + shaMaj st.a st.b st.c) % 4294967296
  ⟨(t1 + t2) % 4294967296, st.a, st.b, st.c, (st.d + t1) % 4294967296, st.e, st.f, st.g⟩

/-- Compress one 16-word block into the running hash state. -/
def compress (st : Hash8) (block : List Nat) : Hash8 :=
  let r := (shaK.zip (schedule block)).foldl roundStep st
  ⟨add32 st.a r.a, add32 st.b r.b, add32 st.c r.c, add32 st.d r.d,
   add32 st.e r.e, add32 st.f r.f, add32 st.g r.g, add32 st.h r.h⟩

/-- SHA-256 padding: the message, a `0x80` byte, zero bytes up to 56 mod
64, and the bit length as an 8-byte big-endian integer. -/
def shaPad (msg : List Nat) : List Nat :=
  let l := msg.length
  let zeros := (64 - (l + 9) % 64) % 64
  let bitLen := 8 * l
  msg ++ 0x80 :: List.replicate zeros 0 ++
    [bitLen / 2 ^ 56 % 256, bitLen / 2 ^ 48 % 256, bitLen / 2 ^ 40 % 256,
     bitLen / 2 ^ 32 % 256, bitLen / 2 ^ 24 % 256, bitLen / 2 ^ 16 % 256,
     bitLen / 2 ^ 8 % 256, bitLen % 256]

/-- Group a byte list into big-endian 32-bit words, four bytes each. -/
def bytesToWords : List Nat → List Nat
  | b0 :: b1 :: b2 :: b3 :: rest =>
      (b0 * 2 ^ 24 + b1 * 2 ^ 16 + b2 * 2 ^ 8 + b3) % 4294967296 :: bytesToWords rest
  | _ => []

/-- Split a word list into blocks of sixteen words, structurally
recursing on a fuel bound (the list length always suffices, since each
step consumes at least one element). -/
def chunk16Fuel : Nat → List Nat → List (List Nat)
  | 0, _ => []
  | _, [] => []
  | fuel + 1, w :: ws => (w :: ws).take 16 :: chunk16Fuel fuel ((w :: ws).drop 16)

/-- Split a word list into blocks of sixteen words. -/
def chunk16 (ws : List Nat) : List (List Nat) :=
  chunk16Fuel ws.length ws

/-- Serialize a 32-bit word to four big-endian bytes. -/
def wordBytes (w : Nat) : List Nat :=
  [w / 2 ^ 24 % 256, w / 2 ^ 16 % 256, w / 2 ^ 8 % 256, w % 256]

/-- The 32 digest bytes of a final hash state. -/
def digestBytes (st : Hash8) : List Nat :=
  wordBytes st.a ++ wordBytes st.b ++ wordBytes st.c ++ wordBytes st.d ++
    wordBytes st.e ++ wordBytes st.f ++ wordBytes st.g ++ wordBytes st.h

/-- SHA-256 of a byte sequence, as 32 bytes
(models Go `crypto/sha256.Sum256`). -/
def sha256 (msg : List Nat) : List Nat :=
  digestBytes ((chunk16 (bytesToWords (shaPad msg))).foldl compress shaH0)

/-! ### Hex encoding and the fingerprint formatting loop -/

/-- One lower-case hexadecimal digit, as produced by Go
`encoding/hex`. -/
def hexDigit (n : Nat) : Char :=
  if n < 10 then Char.ofNat (48 + n) else Char.ofNat (87 + n)

/-- The two lower-case hex characters of one byte. -/
def byteHexChars (b : Nat) : List Char :=
  [hexDigit (b / 16), hexDigit (b % 16)]

/-- Go `hex.EncodeToString`: lower-case hex characters of a byte list. -/
def hexEncode (bs : List Nat) : List Char :=
  bs.flatMap byteHexChars

/-- The loop body of `x509CertFingerprint`: walking the hex string with
index `i`, write a `:` whenever `i > 0 && i % 2 == 0`, then the
upper-cased character. -/
def colonUpperGo (i : Nat) : List Char → List Char
  | [] => []
  | c :: rest =>
      (if 0 < i ∧ i % 2 = 0 then [':'] else []) ++ (c.toUpper :: colonUpperGo (i + 1) rest)

/-- Go `x509CertFingerprint`: SHA-256 the raw DER bytes, hex-encode, and
format with colons between byte pairs, upper-cased. -/
def x509CertFingerprint (raw : List Nat) : String :=
  String.mk (colonUpperGo 0 (hexEncode (sha256 raw)))

/-- Upper-cased two-character hex group of one byte (the shape the spec
describes for each fingerprint group). -/
def byteHexUpper (b : Nat) : List Char :=
  (byteHexChars b).map Char.toUpper

/-- Interleave a single `':'` between consecutive groups. -/
def joinColon : List (List Char) → List Char
  | [] => []
  | [g] => g
  | g :: g2 :: gs => g ++ ':' :: joinColon (g2 :: gs)

/-- An upper-case hexadecimal character: `'0'..'9'` or `'A'..'F'`. -/
def isUpperHexChar (c : Char) : Bool :=
  (48 ≤ c.toNat && c.toNat ≤ 57) || (65 ≤ c.toNat && c.toNat ≤ 70)

/-! ### The SecurityState resource and the controller environment -/

/-- The published `SecurityState` resource spec: fields `SecureBoot` and
`PCRSigningKeyFingerprint` of `runtimeres.SecurityState`. -/
structure SecurityStateSpec where
  secureBoot : Bool
  pcrSigningKeyFingerprint : String
deriving Repr, DecidableEq

/-- Modelled from the spec: `runtimeres.NewSecurityStateSpec` (declared
outside this fragment) constructs the resource "with default fields" —
`secureBoot` defaults to `false` and the fingerprint to the empty string
("empty string = absent"). -/
def NewSecurityStateSpec : SecurityStateSpec :=
  { secureBoot := false, pcrSigningKeyFingerprint := "" }

/-- The mutation the first `safe.WriterModify` call applies: set the
`SecureBoot` field to the computed posture. -/
def postureModify (b : Bool) (st : SecurityStateSpec) : SecurityStateSpec :=
  { st with secureBoot := b }

/-- The mutation the second `safe.WriterModify` call applies: set the
`PCRSigningKeyFingerprint` field. -/
def fingerprintModify (fp : String) (st : SecurityStateSpec) : SecurityStateSpec :=
  { st with pcrSigningKeyFingerprint := fp }

/-- `safe.WriterModify` on the singleton resource: apply the mutation to
the current value if the resource exists, otherwise to a freshly
default-constructed one, and commit the result atomically. -/
def writerModify (store : Option SecurityStateSpec)
    (f : SecurityStateSpec → SecurityStateSpec) : SecurityStateSpec :=
  f (store.getD NewSecurityStateSpec)

/-- The external collaborators of one `Run` execution:

* `cancelled` — the cancellation signal arrives before the first
  scheduling event (`ctx.Done()` wins the `select`);
* `secureBootEnabled` / `setupModeActive` — the firmware answers of
  `efi.GetSecureBoot()` and `efi.GetSetupMode()` (the Go library already
  folds query failure into `false`);
* `pcrPublicKeyRead` — result of `os.ReadFile(constants.PCRPublicKey)`:
  `none` for any read error (file absent included), `some bytes` on
  success;
* `pemDecode` — Go `pem.Decode`: `none` when no PEM block is found,
  otherwise the first block's decoded bytes and the remaining input. -/
structure Env where
  cancelled : Bool
  secureBootEnabled : Bool
  setupModeActive : Bool
  pcrPublicKeyRead : Option (List Nat)
  pemDecode : List Nat → Option (List Nat × List Nat)

/-- The observable outcome of one `Run` execution: the returned error
(`none` = nil), the final resource store, the sequence of committed
resource writes, and how many scheduling events were consumed. -/
structure RunResult where
  err : Option String
  store : Option SecurityStateSpec
  writes : List SecurityStateSpec
  eventsConsumed : Nat

/-- `SecurityStateController.Run`, translated line by line:
wait for cancellation or the first event; compute
`secureBootState = GetSecureBoot() && !GetSetupMode()`; publish it via
`safe.WriterModify`; if the PCR public key file reads successfully,
require a PEM block (else return the decode error) and publish
`x509CertFingerprint` of the block bytes; then return nil. -/
def SecurityStateController.Run (env : Env) (store0 : Option SecurityStateSpec) :
    RunResult :=
  if env.cancelled then
    { err := none, store := store0, writes := [], eventsConsumed := 0 }
  else
    let secureBootState := env.secureBootEnabled && !env.setupModeActive
    let s1 := writerModify store0 (postureModify secureBootState)
    match env.pcrPublicKeyRead with
    | none =>
        { err := none, store := some s1, writes := [s1], eventsConsumed := 1 }
    | some pcrPublicKeyData =>
        match env.pemDecode pcrPublicKeyData with
        | none =>
            { err := some "failed to decode PEM block for PCR public key",
              store := some s1, writes := [s1], eventsConsumed := 1 }
        | some (blockBytes, _rest) =>
            let s2 := writerModify (some s1) (fingerprintModify (x509CertFingerprint blockBytes))
            { err := none, store := some s2, writes := [s1, s2], eventsConsumed := 1 }

/-- Environment where the key file is absent (read error). -/
def envNoKey : Env :=
  { cancelled := false, secureBootEnabled := true, setupModeActive := false,
    pcrPublicKeyRead := none, pemDecode := fun _ => none }

/-- Environment where the key file reads as bytes `[0]` that hold no PEM
block. -/
def envBadPem : Env :=
  { cancelled := false, secureBootEnabled := false, setupModeActive := false,
    pcrPublicKeyRead := some [0], pemDecode := fun _ => none }

/-- Environment where the key file bytes `[0]` decode to a PEM block with
bytes `[1, 2, 3]` and trailing data `[9]`. -/
def envGoodPem : Env :=
  { cancelled := false, secureBootEnabled := true, setupModeActive := true,
    pcrPublicKeyRead := some [0], pemDecode := fun _ => some ([1, 2, 3], [9]) }

/-- Environment where cancellation wins the initial `select`. -/
def envCancelled : Env :=
  { cancelled := true, secureBootEnabled := true, setupModeActive := false,
    pcrPublicKeyRead := some [0], pemDecode := fun d => some (d, []) }

/-! ### Helper lemmas -/

theorem hexEncode_cons (b : Nat) (bs : List Nat) :
    hexEncode (b :: bs) = hexDigit (b / 16) :: hexDigit (b % 16) :: hexEncode bs := by
  simp [hexEncode, byteHexChars]

theorem wordBytes_lt (w : Nat) : ∀ b ∈ wordBytes w, b < 256 := by
  intro b hb
  simp only [wordBytes, List.mem_cons, List.not_mem_nil, or_false] at hb
  rcases hb with h | h | h | h <;> subst h <;> exact Nat.mod_lt _ (by norm_num)

theorem sha256_length (msg : List Nat) : (sha256 msg).length = 32 := by
  simp [sha256, digestBytes, wordBytes]

theorem sha256_byte_lt (msg : List Nat) : ∀ b ∈ sha256 msg, b < 256 := by
  intro b hb
  simp only [sha256, digestBytes, List.mem_append] at hb
  rcases hb with ((((((h | h) | h) | h) | h) | h) | h) | h <;> exact wordBytes_lt _ b h

theorem hexDigit_toUpper_upperHex : ∀ n < 16, isUpperHexChar ((hexDigit n).toUpper) = true := by
  decide

theorem byteHexUpper_upperHex (b : Nat) (hb : b < 256) :
    ∀ c ∈ byteHexUpper b, isUpperHexChar c = true := by
  intro c hc
  simp only [byteHexUpper, byteHexChars, List.map_cons, List.map_nil, List.mem_cons,
    List.not_mem_nil, or_false] at hc
  rcases hc with h | h <;> subst h
  · exact hexDigit_toUpper_upperHex (b / 16) (Nat.div_lt_of_lt_mul (by omega))
  · exact hexDigit_toUpper_upperHex (b % 16) (Nat.mod_lt _ (by norm_num))

theorem byteHexUpper_length (b : Nat) : (byteHexUpper b).length = 2 := by
  simp [byteHexUpper, byteHexChars]

theorem joinColon_length :
    ∀ gs : List (List Char), (∀ g ∈ gs, g.length = 2) → gs ≠ [] →
      (joinColon gs).length = 3 * gs.length - 1
  | [], _, hne => absurd rfl hne
  | [g], h2, _ => by simp [joinColon, h2 g (List.mem_cons_self g [])]
  | g :: g2 :: gs, h2, _ => by
      have ih := joinColon_length (g2 :: gs)
        (fun x hx => h2 x (List.mem_cons_of_mem g hx)) (by simp)
      have hg := h2 g (List.mem_cons_self g (g2 :: gs))
      simp only [joinColon, List.length_append, List.length_cons, hg, ih] at ih ⊢
      omega

theorem colonUpperGo_cons_cons (c1 c2 : Char) (cs : List Char) (i : Nat) (h : i % 2 = 0) :
    colonUpperGo i (c1 :: c2 :: cs) =
      (if 0 < i then [':'] else []) ++ c1.toUpper :: c2.toUpper :: colonUpperGo (i + 2) cs := by
  simp only [colonUpperGo]
  rw [if_neg (by omega : ¬(0 < i + 1 ∧ (i + 1) % 2 = 0))]
  by_cases hi : 0 < i
  · rw [if_pos ⟨hi, h⟩, if_pos hi]
    simp
  · rw [if_neg (fun hh => hi hh.1), if_neg hi]
    simp

theorem colonUpperGo_hexEncode (bs : List Nat) :
    ∀ i : Nat, i % 2 = 0 →
      colonUpperGo i (hexEncode bs) =
        if bs = [] then []
        else (if 0 < i then [':'] else []) ++ joinColon (bs.map byteHexUpper) := by
  induction bs with
  | nil => intro i _; simp [hexEncode, colonUpperGo]
  | cons b rest ih =>
      intro i h
      rw [hexEncode_cons, colonUpperGo_cons_cons _ _ _ i h, ih (i + 2) (by omega)]
      cases rest with
      | nil => simp [joinColon, byteHexUpper, byteHexChars]
      | cons r rs =>
          rw [if_neg (List.cons_ne_nil r rs), if_pos (show 0 < i + 2 by omega),
            if_neg (List.cons_ne_nil b (r :: rs))]
          simp [joinColon, byteHexUpper, byteHexChars]

theorem sha256_ne_nil (msg : List Nat) : sha256 msg ≠ [] := by
  intro h
  have := sha256_length msg
  rw [h] at this
  simp at this

theorem x509CertFingerprint_eq_joinColon (raw : List Nat) :
    x509CertFingerprint raw = String.mk (joinColon ((sha256 raw).map byteHexUpper)) := by
  have h := colonUpperGo_hexEncode (sha256 raw) 0 (by norm_num)
  simp only [sha256_ne_nil raw, if_false, Nat.lt_irrefl, List.nil_append] at h
  simp [x509CertFingerprint, h, sha256_ne_nil raw]

/-! ### Claim theorems -/

/-- C1: for every pair of firmware booleans, the `secureBoot` posture
`Run` publishes (both as the first committed write and in the final
resource) equals `secureBootEnabled AND NOT setupModeActive`; it is
`true` exactly when `secureBootEnabled = true` and
`setupModeActive = false`, and `false` for every other combination. -/
theorem run_publishes_secureBoot_and_not_setupMode (env : Env)
    (store0 : Option SecurityStateSpec) (hc : env.cancelled = false) :
    ((SecurityStateController.Run env store0).writes.head?.map SecurityStateSpec.secureBoot) =
      some (env.secureBootEnabled && !env.setupModeActive) ∧
    ((SecurityStateController.Run env store0).store.map SecurityStateSpec.secureBoot) =
      some (env.secureBootEnabled && !env.setupModeActive) ∧
    ((env.secureBootEnabled && !env.setupModeActive) = true ↔
      (env.secureBootEnabled = true ∧ env.setupModeActive = false)) := by
  refine ⟨?_, ?_, ?_⟩
  · cases hr : env.pcrPublicKeyRead with
    | none => simp [SecurityStateController.Run, hc, hr, writerModify, postureModify]
    | some dat =>
        cases hp : env.pemDecode dat with
        | none => simp [SecurityStateController.Run, hc, hr, hp, writerModify, postureModify]
        | some blockRest =>
            simp [SecurityStateController.Run, hc, hr, hp, writerModify, postureModify]
  · cases hr : env.pcrPublicKeyRead with
    | none => simp [SecurityStateController.Run, hc, hr, writerModify, postureModify]
    | some dat =>
        cases hp : env.pemDecode dat with
        | none => simp [SecurityStateController.Run, hc, hr, hp, writerModify, postureModify]
        | some blockRest =>
            simp [SecurityStateController.Run, hc, hr, hp, writerModify, postureModify,
              fingerprintModify]
  · cases env.secureBootEnabled <;> cases env.setupModeActive <;> simp

/-- C1 witness: the posture published in `envNoKey` (secure boot enabled,
setup mode inactive, no key file) starting from the absent resource. -/
theorem run_publishes_secureBoot_and_not_setupMode_witness :
    envNoKey.cancelled = false ∧
    (((SecurityStateController.Run envNoKey none).writes.head?.map SecurityStateSpec.secureBoot) =
        some (envNoKey.secureBootEnabled && !envNoKey.setupModeActive) ∧
      ((SecurityStateController.Run envNoKey none).store.map SecurityStateSpec.secureBoot) =
        some (envNoKey.secureBootEnabled && !envNoKey.setupModeActive) ∧
      ((envNoKey.secureBootEnabled && !envNoKey.setupModeActive) = true ↔
        (envNoKey.secureBootEnabled = true ∧ envNoKey.setupModeActive = false))) :=
  ⟨rfl, run_publishes_secureBoot_and_not_setupMode envNoKey none rfl⟩

/-- C2: for every byte sequence, `x509CertFingerprint` is exactly the
upper-cased two-character hex groups of the SHA-256 digest joined by
colons: 32 groups of upper-case hex characters, hence 95 characters. -/
theorem x509CertFingerprint_colon_grouped_sha256 (bs : List Nat) :
    x509CertFingerprint bs = String.mk (joinColon ((sha256 bs).map byteHexUpper)) ∧
    ((sha256 bs).map byteHexUpper).length = 32 ∧
    (∀ g ∈ (sha256 bs).map byteHexUpper,
      g.length = 2 ∧ ∀ c ∈ g, isUpperHexChar c = true) ∧
    (x509CertFingerprint bs).length = 95 := by
  have hlen : ((sha256 bs).map byteHexUpper).length = 32 := by
    simp [sha256_length]
  have h2 : ∀ g ∈ (sha256 bs).map byteHexUpper, g.length = 2 := by
    intro g hg
    obtain ⟨b, _, rfl⟩ := List.mem_map.mp hg
    exact byteHexUpper_length b
  refine ⟨x509CertFingerprint_eq_joinColon bs, hlen, ?_, ?_⟩
  · intro g hg
    obtain ⟨b, hb, rfl⟩ := List.mem_map.mp hg
    exact ⟨byteHexUpper_length b, byteHexUpper_upperHex b (sha256_byte_lt bs b hb)⟩
  · have hne : (sha256 bs).map byteHexUpper ≠ [] := by
      intro h
      rw [h] at hlen
      simp at hlen
    have := joinColon_length _ h2 hne
    rw [x509CertFingerprint_eq_joinColon]
    show (joinColon ((sha256 bs).map byteHexUpper)).length = 95
    rw [this, hlen]

/-- C3: when the key file reads successfully but PEM decoding yields no
block, `Run` returns the fatal "failed to decode PEM block" error, the
only committed write is the boot-posture write (so the failure happens
after the posture is published), and no fingerprint is published: every
write and the final resource keep the prior fingerprint value. -/
theorem run_pem_decode_failure_is_fatal (env : Env) (store0 : Option SecurityStateSpec)
    (dat : List Nat) (hc : env.cancelled = false)
    (hr : env.pcrPublicKeyRead = some dat) (hp : env.pemDecode dat = none) :
    (SecurityStateController.Run env store0).err =
      some ("failed to decode PEM block" ++ " for PCR public key") ∧
    (SecurityStateController.Run env store0).writes =
      [writerModify store0 (postureModify (env.secureBootEnabled && !env.setupModeActive))] ∧
    ((SecurityStateController.Run env store0).writes.map
        SecurityStateSpec.pcrSigningKeyFingerprint) =
      [(store0.getD NewSecurityStateSpec).pcrSigningKeyFingerprint] ∧
    ((SecurityStateController.Run env store0).store.map
        SecurityStateSpec.pcrSigningKeyFingerprint) =
      some (store0.getD NewSecurityStateSpec).pcrSigningKeyFingerprint := by
  refine ⟨?_, ?_, ?_, ?_⟩ <;>
    simp [SecurityStateController.Run, hc, hr, hp, writerModify, postureModify]

/-- C3 witness: `envBadPem` (key file reads as `[0]`, no PEM block)
starting from the absent resource. -/
theorem run_pem_decode_failure_is_fatal_witness :
    envBadPem.cancelled = false ∧ envBadPem.pcrPublicKeyRead = some [0] ∧
    envBadPem.pemDecode [0] = none ∧
    ((SecurityStateController.Run envBadPem none).err =
        some ("failed to decode PEM block" ++ " for PCR public key") ∧
      (SecurityStateController.Run envBadPem none).writes =
        [writerModify none (postureModify
          (envBadPem.secureBootEnabled && !envBadPem.setupModeActive))] ∧
      ((SecurityStateController.Run envBadPem none).writes.map
          SecurityStateSpec.pcrSigningKeyFingerprint) =
        [(Option.getD (none : Option SecurityStateSpec)
            NewSecurityStateSpec).pcrSigningKeyFingerprint] ∧
      ((SecurityStateController.Run envBadPem none).store.map
          SecurityStateSpec.pcrSigningKeyFingerprint) =
        some (Option.getD (none : Option SecurityStateSpec)
          NewSecurityStateSpec).pcrSigningKeyFingerprint) :=
  ⟨rfl, rfl, rfl, run_pem_decode_failure_is_fatal envBadPem none [0] rfl rfl rfl⟩

/-- C4: when reading the key file fails (file absent or any other read
error, both modelled as an unsuccessful `os.ReadFile`), `Run` skips the
fingerprint steps — the boot-posture write is the only write, the
fingerprint field keeps its prior value (empty when the resource starts
absent) — and returns nil. -/
theorem run_read_error_skips_fingerprint (env : Env) (store0 : Option SecurityStateSpec)
    (hc : env.cancelled = false) (hr : env.pcrPublicKeyRead = none) :
    (SecurityStateController.Run env store0).err = none ∧
    (SecurityStateController.Run env store0).writes =
      [writerModify store0 (postureModify (env.secureBootEnabled && !env.setupModeActive))] ∧
    ((SecurityStateController.Run env store0).store.map
        SecurityStateSpec.pcrSigningKeyFingerprint) =
      some (store0.getD NewSecurityStateSpec).pcrSigningKeyFingerprint ∧
    (store0 = none →
      ((SecurityStateController.Run env store0).store.map
          SecurityStateSpec.pcrSigningKeyFingerprint) = some "") := by
  refine ⟨?_, ?_, ?_, ?_⟩
  · simp [SecurityStateController.Run, hc, hr]
  · simp [SecurityStateController.Run, hc, hr]
  · simp [SecurityStateController.Run, hc, hr, writerModify, postureModify]
  · intro h0
    subst h0
    simp [SecurityStateController.Run, hc, hr, writerModify, postureModify,
      NewSecurityStateSpec]

/-- C4 witness: `envNoKey` (read fails) starting from the absent
resource: no error, one posture write, empty fingerprint. -/
theorem run_read_error_skips_fingerprint_witness :
    envNoKey.cancelled = false ∧ envNoKey.pcrPublicKeyRead = none ∧
    ((SecurityStateController.Run envNoKey none).err = none ∧
      (SecurityStateController.Run envNoKey none).writes =
        [writerModify none (postureModify
          (envNoKey.secureBootEnabled && !envNoKey.setupModeActive))] ∧
      ((SecurityStateController.Run envNoKey none).store.map
          SecurityStateSpec.pcrSigningKeyFingerprint) =
        some (Option.getD (none : Option SecurityStateSpec)
          NewSecurityStateSpec).pcrSigningKeyFingerprint ∧
      ((none : Option SecurityStateSpec) = none →
        ((SecurityStateController.Run envNoKey none).store.map
            SecurityStateSpec.pcrSigningKeyFingerprint) = some "")) :=
  ⟨rfl, rfl, run_read_error_skips_fingerprint envNoKey none rfl rfl⟩

set_option maxRecDepth 100000 in
/-- C5 counterexample: the fingerprint of the empty byte sequence is not
the spec's precomputed reference string — that reference drops the final
hex digit `5` of the SHA-256 digest of the empty byte sequence and so
has a dangling one-character last group. -/
theorem empty_fingerprint_differs_from_spec_reference :
    x509CertFingerprint [] ≠
      "E3:B0:C4:42:98:FC:1C:14:9A:FB:F4:C8:99:6F:B9:24:27:AE:41:E4:64:9B:93:4C:A4:95:99:1B:78:52:B8:5" := by
  decide

set_option maxRecDepth 100000 in
/-- C5 amended: the fingerprint of the empty byte sequence equals the
colon-grouped upper-case form of the full 64-hex-digit SHA-256 digest
`e3b0c442...7852b855`, ending in the two-character group `55`. -/
theorem empty_fingerprint_value :
    x509CertFingerprint [] =
      "E3:B0:C4:42:98:FC:1C:14:9A:FB:F4:C8:99:6F:B9:24:27:AE:41:E4:64:9B:93:4C:A4:95:99:1B:78:52:B8:55" := by
  decide

/-- C6: when cancellation arrives before the first scheduling event,
`Run` returns nil, commits zero writes, consumes no event, and leaves
the resource store untouched. -/
theorem run_cancellation_before_signal_writes_nothing (env : Env)
    (store0 : Option SecurityStateSpec) (hc : env.cancelled = true) :
    (SecurityStateController.Run env store0).err = none ∧
    (SecurityStateController.Run env store0).writes = [] ∧
    (SecurityStateController.Run env store0).eventsConsumed = 0 ∧
    (SecurityStateController.Run env store0).store = store0 := by
  refine ⟨?_, ?_, ?_, ?_⟩ <;> simp [SecurityStateController.Run, hc]

/-- C6 witness: `envCancelled` starting from the absent resource. -/
theorem run_cancellation_before_signal_writes_nothing_witness :
    envCancelled.cancelled = true ∧
    ((SecurityStateController.Run envCancelled none).err = none ∧
      (SecurityStateController.Run envCancelled none).writes = [] ∧
      (SecurityStateController.Run envCancelled none).eventsConsumed = 0 ∧
      (SecurityStateController.Run envCancelled none).store = none) :=
  ⟨rfl, run_cancellation_before_signal_writes_nothing envCancelled none rfl⟩

/-- C7 counterexample: in the execution `envBadPem` (key file readable,
PEM decode yields no block) `Run` aborts with an error rather than
returning successfully, so "in any execution … then returns
successfully" fails. -/
theorem run_single_shot_counterexample :
    (SecurityStateController.Run envBadPem none).err =
      some "failed to decode PEM block for PCR public key" ∧
    (SecurityStateController.Run envBadPem none).err ≠ none :=
  ⟨rfl, fun h => by simp [SecurityStateController.Run, envBadPem] at h⟩

/-- C7 amended: `Run` is single-shot — every execution consumes at most
one scheduling event, commits at most two writes (the boot posture,
then optionally the fingerprint), and then returns, with a nil result
unless the fatal PEM-decode error occurred; the returned `writes` list
is the complete set of writes of the execution, so nothing further is
written after the terminal state. -/
theorem run_single_shot (env : Env) (store0 : Option SecurityStateSpec) :
    (SecurityStateController.Run env store0).eventsConsumed ≤ 1 ∧
    (SecurityStateController.Run env store0).writes.length ≤ 2 ∧
    ((SecurityStateController.Run env store0).err = none ∨
      (SecurityStateController.Run env store0).err =
        some "failed to decode PEM block for PCR public key") := by
  cases hc : env.cancelled with
  | true => simp [SecurityStateController.Run, hc]
  | false =>
      cases hr : env.pcrPublicKeyRead with
      | none => simp [SecurityStateController.Run, hc, hr]
      | some dat =>
          cases hp : env.pemDecode dat with
          | none => simp [SecurityStateController.Run, hc, hr, hp]
          | some blockRest => simp [SecurityStateController.Run, hc, hr, hp]

/-- C8: the fingerprint write mutates only the fingerprint field — for
every prior resource state, applying the fingerprint mutation through
the modify-or-create primitive preserves `secureBoot` (the only other
field of the resource) and sets the fingerprint. -/
theorem fingerprint_write_preserves_secureBoot (store : Option SecurityStateSpec)
    (fp : String) :
    (writerModify store (fingerprintModify fp)).secureBoot =
      (store.getD NewSecurityStateSpec).secureBoot ∧
    (writerModify store (fingerprintModify fp)).pcrSigningKeyFingerprint = fp :=
  ⟨rfl, rfl⟩

/-- C9: the posture mutation is idempotent through the modify-or-create
primitive — applying it a second time with the same posture value to the
committed result changes nothing. -/
theorem posture_write_idempotent (store : Option SecurityStateSpec) (b : Bool) :
    writerModify (some (writerModify store (postureModify b))) (postureModify b) =
      writerModify store (postureModify b) :=
  rfl

/-- C10: whenever the key file reads as bytes that PEM-decode to some
block — whatever the block bytes are (no DER or X.509 validation) and
whatever data follows the block — `Run` returns nil and publishes as
fingerprint the SHA-256-based `x509CertFingerprint` of exactly the
block's decoded bytes, as the second of its two writes. -/
theorem run_fingerprints_first_pem_block_without_validation (env : Env)
    (store0 : Option SecurityStateSpec) (dat blockBytes rest : List Nat)
    (hc : env.cancelled = false) (hr : env.pcrPublicKeyRead = some dat)
    (hp : env.pemDecode dat = some (blockBytes, rest)) :
    (SecurityStateController.Run env store0).err = none ∧
    ((SecurityStateController.Run env store0).store.map
        SecurityStateSpec.pcrSigningKeyFingerprint) =
      some (x509CertFingerprint blockBytes) ∧
    ((SecurityStateController.Run env store0).writes.map
        SecurityStateSpec.pcrSigningKeyFingerprint) =
      [(store0.getD NewSecurityStateSpec).pcrSigningKeyFingerprint,
        x509CertFingerprint blockBytes] := by
  refine ⟨?_, ?_, ?_⟩ <;>
    simp [SecurityStateController.Run, hc, hr, hp, writerModify, postureModify,
      fingerprintModify]

/-- C10 witness: `envGoodPem`, whose key file bytes `[0]` decode to the
(non-certificate) block bytes `[1, 2, 3]` with trailing data `[9]`. -/
theorem run_fingerprints_first_pem_block_without_validation_witness :
    envGoodPem.cancelled = false ∧ envGoodPem.pcrPublicKeyRead = some [0] ∧
    envGoodPem.pemDecode [0] = some ([1, 2, 3], [9]) ∧
    ((SecurityStateController.Run envGoodPem none).err = none ∧
      ((SecurityStateController.Run envGoodPem none).store.map
          SecurityStateSpec.pcrSigningKeyFingerprint) =
        some (x509CertFingerprint [1, 2, 3]) ∧
      ((SecurityStateController.Run envGoodPem none).writes.map
          SecurityStateSpec.pcrSigningKeyFingerprint) =
        [(Option.getD (none : Option SecurityStateSpec)
            NewSecurityStateSpec).pcrSigningKeyFingerprint,
          x509CertFingerprint [1, 2, 3]]) :=
  ⟨rfl, rfl, rfl,
    run_fingerprints_first_pem_block_without_validation envGoodPem none [0] [1, 2, 3] [9]
      rfl rfl rfl⟩
